import Mathlib

/-!
Verification development for the browser video-to-GIF converter.

The orchestration core lives in `src/utils/ffmpegUtils.js` (class
`FFmpegUtils`).  We embed it shallowly:

* JS numbers are modelled as `ℚ` (no claim here depends on binary
  floating point rounding).
* `Math.round` is `jsRound` (round half toward positive infinity).
* The external WASM engine is an oracle (`Engine`): for each of the two
  `ffmpeg.run` commands it either succeeds or rejects with a message,
  and on success it may deposit an output file into the virtual file
  system; `ffmpeg.load` either succeeds or rejects with an error.
* The engine's virtual file system (`FS`) is an association list from
  file names to byte lists; names are `List Char`.
* `convertToGif` is embedded as a pure function from the oracle, the
  wrapper state and the call arguments to a `ConvOut` record carrying
  the settled result, the final virtual file system, the ordered trace
  of orchestrator-issued FS/engine operations, and the progress
  callback slot.  Optional JS parameters are `Option` arguments whose
  defaults are applied inside the body, mirroring JS default-parameter
  semantics.
-/

/-- JS `Math.round`: round half toward positive infinity. -/
def jsRound (x : ℚ) : ℤ := ⌊x + 1/2⌋

/-- A byte buffer in the virtual file system. -/
abbrev Bytes := List Nat

/-- A file name in the virtual file system. -/
abbrev FName := List Char

/-- The engine's virtual file system: named byte buffers. -/
abbrev VFS := List (FName × Bytes)

/-- `FS("writeFile", n, d)`: create or overwrite the named buffer. -/
def fsWrite (fs : VFS) (n : FName) (d : Bytes) : VFS :=
  (n, d) :: fs.filter (fun p => !(p.1 == n))

/-- `FS("readFile", n)`: `some` contents when present. -/
def fsRead (fs : VFS) (n : FName) : Option Bytes :=
  (fs.find? (fun p => p.1 == n)).map (fun p => p.2)

/-- Whether the named file is present in the virtual file system. -/
def fsHas (fs : VFS) (n : FName) : Bool :=
  fs.any (fun p => p.1 == n)

/-- `FS("unlink", n)`: remove the named buffer. -/
def fsUnlink (fs : VFS) (n : FName) : VFS :=
  fs.filter (fun p => !(p.1 == n))

/-- A JS value used as a promise rejection value: either a plain string
(the orchestrator rejects with built message strings) or an `Error`
object carrying a `.message`. -/
inductive JsVal where
  | str (s : String)
  | errObj (msg : String)
deriving DecidableEq, Repr

/-- The `Blob` the conversion resolves with: bytes plus a MIME type. -/
structure JsBlob where
  data : Bytes
  type : String
deriving DecidableEq, Repr

/-- One argument of an `ffmpeg.run` command.  Literal strings stay
literal; numeric arguments passed through `.toString()` keep their
numeric value; the two filter-graph template strings keep their
interpolated parameters. -/
inductive Arg where
  | lit (s : String)
  | num (q : ℚ)
  | fileName (n : FName)
  | vfPalette (fps width : ℚ) (statsMode : ℤ)
  | lavfiUse (fps width : ℚ)
deriving DecidableEq, Repr

/-- One orchestrator-issued operation, in program order. -/
inductive Event where
  | writeFile (n : FName) (d : Bytes)
  | run (args : List Arg)
  | readFile (n : FName)
  | unlink (n : FName)
deriving DecidableEq, Repr

/-- Oracle for the external engine's behaviour during one call:
whether `load` and each `ffmpeg.run` succeed (`none`) or reject with an
error message, and which files a successful run deposits. -/
structure Engine where
  loadResult : Option String
  run1Result : Option String
  run2Result : Option String
  paletteOut : Option Bytes
  gifOut : Option Bytes
  readErrMsg : String
deriving DecidableEq, Repr

/-- The source video handed to `convertToGif`: its `.name` and the
bytes `fetchFile` yields. -/
structure VFile where
  name : List Char
  data : Bytes
deriving DecidableEq, Repr

deriving instance DecidableEq for Except

/-- The observable outcome of one `convertToGif` call. -/
structure ConvOut where
  result : Except JsVal JsBlob
  fs : VFS
  trace : List Event
  progressCallback : Option String
deriving DecidableEq, Repr

/-- `getFileExtension`: `filename.split(".").pop().toLowerCase()`.
`splitOnChar` embeds JS `String.split` with a single-character
separator (JS split never yields an empty array, so `.pop()` is the
last piece). -/
def splitOnChar (sep : Char) : List Char → List (List Char)
  | [] => [[]]
  | c :: cs =>
    if c = sep then [] :: splitOnChar sep cs
    else
      match splitOnChar sep cs with
      | [] => [[c]]
      | h :: t => (c :: h) :: t

/-- `FFmpegUtils.getFileExtension`, over the characters of the name. -/
def getFileExtension (filename : List Char) : List Char :=
  ((splitOnChar '.' filename).getLastD []).map Char.toLower

/-- The staged input name: `"input." + this.getFileExtension(videoFile.name)`. -/
def inputFileNameFor (videoName : List Char) : FName :=
  ("input.").data ++ getFileExtension videoName

/-- The fixed staged output name `"output.gif"`. -/
def outputFileName : FName := ("output.gif").data

/-- The fixed staged palette name `"palette.png"`. -/
def paletteFileName : FName := ("palette.png").data

/-- `const normalizedQuality = Math.max(1, Math.min(100, quality))`. -/
def normalizedQualityOf (quality : ℚ) : ℚ := max 1 (min 100 quality)

/-- `const statsMode = Math.max(1, Math.round((100 - normalizedQuality) / 20))`. -/
def statsModeOf (quality : ℚ) : ℤ :=
  max 1 (jsRound ((100 - normalizedQualityOf quality) / 20))

/-- Arguments of the first `ffmpeg.run` call (palette generation). -/
def paletteCmdArgs (startTime duration : ℚ) (inputFileName : FName)
    (fps outputWidth : ℚ) (statsMode : ℤ) : List Arg :=
  [Arg.lit ("-ss"), Arg.num startTime, Arg.lit ("-t"), Arg.num duration,
   Arg.lit ("-i"), Arg.fileName inputFileName, Arg.lit ("-vf"),
   Arg.vfPalette fps outputWidth statsMode, Arg.lit ("palette.png")]

/-- Arguments of the second `ffmpeg.run` call (palette application). -/
def encodeCmdArgs (startTime duration : ℚ) (inputFileName : FName)
    (fps outputWidth : ℚ) : List Arg :=
  [Arg.lit ("-ss"), Arg.num startTime, Arg.lit ("-t"), Arg.num duration,
   Arg.lit ("-i"), Arg.fileName inputFileName, Arg.lit ("-i"),
   Arg.lit ("palette.png"), Arg.lit ("-lavfi"),
   Arg.lavfiUse fps outputWidth, Arg.lit ("-loop"), Arg.lit ("0"),
   Arg.fileName outputFileName]

/-- The rejection value `load()` itself settles with when the engine
bring-up fails: the underlying `Error` object. -/
def loadRejectValue (eng : Engine) : Option JsVal :=
  eng.loadResult.map (fun m => JsVal.errObj m)

/-- The body of `convertToGif` after the engine is loaded: staging,
validation, the two-pass command sequence, output read, cleanup.
Mirrors the second `try { ... } catch` block of the source. -/
def convertBody (eng : Engine) (fs0 : VFS) (videoFile : VFile)
    (startTime endTime outputWidth fps quality : ℚ)
    (pcb : Option String) : ConvOut :=
  let inputFileName := inputFileNameFor videoFile.name
  let fs1 := fsWrite fs0 inputFileName videoFile.data
  let tr1 := [Event.writeFile inputFileName videoFile.data]
  let duration := endTime - startTime
  if duration ≤ 0 then
    { result := Except.error (JsVal.str
        ("Invalid time range: end time must be greater than start time")),
      fs := fs1, trace := tr1, progressCallback := pcb }
  else
    let statsMode := statsModeOf quality
    let args1 := paletteCmdArgs startTime duration inputFileName fps outputWidth statsMode
    let tr2 := tr1 ++ [Event.run args1]
    match eng.run1Result with
    | some m =>
      { result := Except.error (JsVal.str ("Failed to convert video: " ++ m)),
        fs := fs1, trace := tr2, progressCallback := pcb }
    | none =>
      let fs2 := match eng.paletteOut with
        | some d => fsWrite fs1 paletteFileName d
        | none => fs1
      let args2 := encodeCmdArgs startTime duration inputFileName fps outputWidth
      let tr3 := tr2 ++ [Event.run args2]
      match eng.run2Result with
      | some m =>
        { result := Except.error (JsVal.str ("Failed to convert video: " ++ m)),
          fs := fs2, trace := tr3, progressCallback := pcb }
      | none =>
        let fs3 := match eng.gifOut with
          | some d => fsWrite fs2 outputFileName d
          | none => fs2
        let tr4 := tr3 ++ [Event.readFile outputFileName]
        match fsRead fs3 outputFileName with
        | none =>
          { result := Except.error (JsVal.str
              ("Failed to convert video: " ++ eng.readErrMsg)),
            fs := fs3, trace := tr4, progressCallback := pcb }
        | some data =>
          let fs4 := fsUnlink (fsUnlink (fsUnlink fs3 inputFileName)
            paletteFileName) outputFileName
          let tr5 := tr4 ++ [Event.unlink inputFileName,
            Event.unlink paletteFileName, Event.unlink outputFileName]
          { result := Except.ok { data := data, type := "image/gif" },
            fs := fs4, trace := tr5, progressCallback := pcb }

/-- `FFmpegUtils.convertToGif`.  `isLoaded` is the wrapper's flag; the
five `Option ℚ` arguments model the JS optional parameters (defaults
`0, 10, 480, 10, 75` applied when omitted), the last argument the
optional progress callback.  If the engine is not loaded, `load` runs
first; a load failure is caught and rejected as the string
`"Failed to load FFmpeg: " ++ error.message`. -/
def convertToGif (eng : Engine) (isLoaded : Bool) (fs0 : VFS) (videoFile : VFile)
    (startTimeOpt endTimeOpt outputWidthOpt fpsOpt qualityOpt : Option ℚ)
    (conversionProgressCallback : Option String) : ConvOut :=
  let startTime := startTimeOpt.getD 0
  let endTime := endTimeOpt.getD 10
  let outputWidth := outputWidthOpt.getD 480
  let fps := fpsOpt.getD 10
  let quality := qualityOpt.getD 75
  let pcb := conversionProgressCallback
  if isLoaded then
    convertBody eng fs0 videoFile startTime endTime outputWidth fps quality pcb
  else
    match eng.loadResult with
    | some msg =>
      { result := Except.error (JsVal.str ("Failed to load FFmpeg: " ++ msg)),
        fs := fs0, trace := [], progressCallback := pcb }
    | none =>
      convertBody eng fs0 videoFile startTime endTime outputWidth fps quality pcb

/-- The engine `run` commands issued during a call, in order. -/
def runCmdsOf (tr : List Event) : List (List Arg) :=
  tr.filterMap (fun e => match e with
    | Event.run a => some a
    | _ => none)

/-- The staged-file write events of a call, in order. -/
def writeEventsOf (tr : List Event) : List Event :=
  tr.filter (fun e => match e with
    | Event.writeFile _ _ => true
    | _ => false)

/-- The progress handler installed by `load` into the engine
configuration: `Math.round(progress.ratio * 100)`. -/
def progressPercent (r : ℚ) : ℤ := jsRound (r * 100)

/-- Host environment observed by `checkBrowserSupport`.
`crossOriginIsolated` is `Option Bool` because the JS global may be
`undefined`; the source compares it with `=== true`. -/
structure HostEnv where
  sharedArrayBufferDefined : Bool
  wasmIsObject : Bool
  wasmInstantiateIsFunction : Bool
  crossOriginIsolated : Option Bool
deriving DecidableEq, Repr

/-- `FFmpegUtils.checkBrowserSupport`. -/
def checkBrowserSupport (env : HostEnv) : Bool :=
  let hasSharedArrayBuffer := env.sharedArrayBufferDefined
  let hasWebAssembly := env.wasmIsObject && env.wasmInstantiateIsFunction
  let isCrossOriginIsolated := env.crossOriginIsolated == some true
  hasSharedArrayBuffer && hasWebAssembly && isCrossOriginIsolated

/-- The wrapper flags `this.isLoaded` / `this.isLoading` that `load`
consults. -/
structure LoadSt where
  isLoaded : Bool
  isLoading : Bool
deriving DecidableEq, Repr

/-- Initial wrapper state (constructor): not loaded, not loading. -/
def initialLoadSt : LoadSt := { isLoaded := false, isLoading := false }

/-- What one `load()` call does synchronously up to its first await:
return resolved at once, start polling as a waiter, or start the
engine bring-up (setting `isLoading`). -/
inductive LoadCallRes where
  | resolvedImmediately
  | waiting
  | initiated
deriving DecidableEq, Repr

/-- The synchronous prefix of `load()`. -/
def loadCall (s : LoadSt) : LoadCallRes × LoadSt :=
  if s.isLoaded then (LoadCallRes.resolvedImmediately, s)
  else if s.isLoading then (LoadCallRes.waiting, s)
  else (LoadCallRes.initiated, { s with isLoading := true })

/-- `n` back-to-back `load()` calls (all made before the in-flight
bring-up settles), returning each call's synchronous outcome and the
final flag state. -/
def runLoadCalls : Nat → LoadSt → List LoadCallRes × LoadSt
  | 0, s => ([], s)
  | n + 1, s =>
    let p := loadCall s
    let q := runLoadCalls n p.2
    (p.1 :: q.1, q.2)

/-- Effect of the in-flight bring-up succeeding:
`this.isLoaded = true; this.isLoading = false`. -/
def completeSuccess (_s : LoadSt) : LoadSt :=
  { isLoaded := true, isLoading := false }

/-- Effect of the in-flight bring-up failing: only
`this.isLoading = false` (the `catch` block does not touch `isLoaded`). -/
def completeFailure (s : LoadSt) : LoadSt :=
  { s with isLoading := false }

/-- The condition a waiter's `setInterval` handler checks: it resolves
its promise exactly when `this.isLoaded` is `true`.  No engine event
mutates the flags after the bring-up settles, so a waiter settles in
the scenario iff this holds of the final state. -/
def waiterResolves (s : LoadSt) : Bool := s.isLoaded

/-- Specification-side formulation of the extension derivation (for the
refinement claim): the lower-cased substring after the last `.`, or the
whole lower-cased name when the name contains no `.`. -/
def specExtension (filename : List Char) : List Char :=
  (if filename.contains '.' then
    (filename.reverse.takeWhile (fun c => c != '.')).reverse
   else filename).map Char.toLower

/-- Fixture: an engine on which everything succeeds; the palette pass
deposits `[7]` and the encode pass deposits `[1, 2, 3]`. -/
def engOk : Engine :=
  { loadResult := none, run1Result := none, run2Result := none,
    paletteOut := some [7], gifOut := some [1, 2, 3], readErrMsg := "e" }

/-- Fixture: an engine whose palette-generation command rejects with
message `x` (load succeeds). -/
def engRun1Fail : Engine :=
  { loadResult := none, run1Result := some ("x"), run2Result := none,
    paletteOut := none, gifOut := none, readErrMsg := "e" }

/-- Fixture: an engine whose bring-up (`load`) rejects with an `Error`
whose message is `boom`. -/
def engLoadFail : Engine :=
  { loadResult := some ("boom"), run1Result := none, run2Result := none,
    paletteOut := none, gifOut := none, readErrMsg := "e" }

/-- Fixture: host with shared memory and WASM but `crossOriginIsolated`
set to `false`. -/
def envNotIsolatedFalse : HostEnv :=
  { sharedArrayBufferDefined := true, wasmIsObject := true,
    wasmInstantiateIsFunction := true, crossOriginIsolated := some false }

/-- Fixture: host with shared memory and WASM but `crossOriginIsolated`
undefined. -/
def envNotIsolatedUndef : HostEnv :=
  { sharedArrayBufferDefined := true, wasmIsObject := true,
    wasmInstantiateIsFunction := true, crossOriginIsolated := none }

/-- Fixture: a source video named `v.mp4` with two bytes of content. -/
def mp4File : VFile := { name := ("v.mp4").data, data := [1, 2] }

lemma splitOnChar_ne_nil (sep : Char) (l : List Char) : splitOnChar sep l ≠ [] := by
  induction l with
  | nil => simp [splitOnChar]
  | cons c cs ih =>
    simp only [splitOnChar]
    split
    · simp
    · cases hS : splitOnChar sep cs <;> simp

lemma splitOnChar_length (sep : Char) (l : List Char) :
    (splitOnChar sep l).length = l.count sep + 1 := by
  induction l with
  | nil => simp [splitOnChar]
  | cons c cs ih =>
    simp only [splitOnChar]
    by_cases hc : c = sep
    · rw [if_pos hc]
      simp only [List.length_cons, ih]
      subst hc
      rw [List.count_cons_self]
    · rw [if_neg hc]
      cases hS : splitOnChar sep cs with
      | nil => exact absurd hS (splitOnChar_ne_nil sep cs)
      | cons h t =>
        rw [hS] at ih
        simp only [List.length_cons] at ih ⊢
        rw [List.count_cons_of_ne (Ne.symm hc)]
        exact ih

lemma takeWhile_append_one (p : Char → Bool) (xs : List Char) (c : Char) :
    (xs ++ [c]).takeWhile p =
      if xs.all p then xs ++ [c].takeWhile p else xs.takeWhile p := by
  induction xs with
  | nil => simp
  | cons a as ih =>
    by_cases h : p a
    · simp only [List.cons_append, List.takeWhile_cons, h, if_true, ih,
        List.all_cons, Bool.true_and]
      split <;> simp_all
    · simp [List.takeWhile_cons, h, List.all_cons]

lemma getLastD_splitOnChar (sep : Char) (l : List Char) :
    (splitOnChar sep l).getLastD [] =
      (l.reverse.takeWhile (fun c => c != sep)).reverse := by
  induction l with
  | nil => simp [splitOnChar]
  | cons c cs ih =>
    simp only [splitOnChar, List.reverse_cons]
    by_cases hc : c = sep
    · rw [if_pos hc, List.getLastD_cons, ih, takeWhile_append_one]
      split
      · rename_i hall
        rw [List.takeWhile_eq_self_iff.mpr (by simpa using hall)]
        simp [hc]
      · rfl
    · rw [if_neg hc]
      have hq : (c != sep) = true := by simpa using hc
      cases hS : splitOnChar sep cs with
      | nil => exact absurd hS (splitOnChar_ne_nil sep cs)
      | cons h t =>
        cases t with
        | nil =>
          have hlen := splitOnChar_length sep cs
          rw [hS] at hlen
          simp only [List.length_cons, List.length_nil] at hlen
          have hmem : sep ∉ cs := List.count_eq_zero.mp (by omega)
          have hall : cs.reverse.all (fun x => x != sep) := by
            simp only [List.all_eq_true, List.mem_reverse, bne_iff_ne, ne_eq]
            intro x hx
            exact fun e => hmem (e ▸ hx)
          rw [hS] at ih
          simp only [List.getLastD_cons, List.getLastD_nil] at ih
          have hcs : h = cs := by
            rw [ih, List.takeWhile_eq_self_iff.mpr (by simpa using hall),
              List.reverse_reverse]
          simp only [List.getLastD_cons, List.getLastD_nil]
          rw [takeWhile_append_one, if_pos hall]
          simp only [List.takeWhile_cons, hq, if_true, List.takeWhile_nil,
            List.reverse_append, List.reverse_cons, List.reverse_nil,
            List.nil_append, List.reverse_reverse]
          rw [hcs]
          rfl
        | cons t1 t2 =>
          have hlen := splitOnChar_length sep cs
          rw [hS] at hlen
          simp only [List.length_cons] at hlen
          have hmem : sep ∈ cs := List.one_le_count_iff.mp (by omega)
          have hnall : ¬ cs.reverse.all (fun x => x != sep) := by
            simp only [List.all_eq_true, List.mem_reverse, bne_iff_ne, ne_eq,
              not_forall]
            exact ⟨sep, hmem, by simp⟩
          rw [hS] at ih
          simp only [List.getLastD_cons] at ih ⊢
          rw [takeWhile_append_one, if_neg hnall]
          exact ih

lemma getFileExtension_eq_spec (filename : List Char) :
    getFileExtension filename = specExtension filename := by
  unfold getFileExtension specExtension
  rw [getLastD_splitOnChar]
  split
  · rfl
  · rename_i hnc
    have hmem : '.' ∉ filename := by simpa using hnc
    have hall : filename.reverse.all (fun x => x != '.') := by
      simp only [List.all_eq_true, List.mem_reverse, bne_iff_ne, ne_eq]
      intro x hx
      exact fun e => hmem (e ▸ hx)
    rw [List.takeWhile_eq_self_iff.mpr (by simpa using hall), List.reverse_reverse]

lemma fsHas_fsWrite_self (fs : VFS) (n : FName) (d : Bytes) :
    fsHas (fsWrite fs n d) n = true := by
  simp [fsHas, fsWrite]

lemma fsRead_fsWrite_self (fs : VFS) (n : FName) (d : Bytes) :
    fsRead (fsWrite fs n d) n = some d := by
  simp [fsRead, fsWrite, List.find?]

lemma convertToGif_loaded (eng : Engine) (fs0 : VFS) (videoFile : VFile)
    (s e w f q : ℚ) (pcb : Option String) :
    convertToGif eng true fs0 videoFile (some s) (some e) (some w) (some f)
      (some q) pcb = convertBody eng fs0 videoFile s e w f q pcb := rfl

lemma convertBody_trace_shape (eng : Engine) (fs0 : VFS) (videoFile : VFile)
    (s e w f q : ℚ) (pcb : Option String) (h : ¬ (e - s ≤ 0)) :
    ∃ rest, (convertBody eng fs0 videoFile s e w f q pcb).trace =
      Event.writeFile (inputFileNameFor videoFile.name) videoFile.data ::
      Event.run (paletteCmdArgs s (e - s) (inputFileNameFor videoFile.name) f w
        (statsModeOf q)) :: rest := by
  simp only [convertBody]
  rw [if_neg h]
  cases hr1 : eng.run1Result with
  | some m => exact ⟨_, rfl⟩
  | none =>
    cases hr2 : eng.run2Result with
    | some m => exact ⟨_, rfl⟩
    | none =>
      cases hR : fsRead (match eng.gifOut with
          | some d =>
            fsWrite (match eng.paletteOut with
              | some d2 => fsWrite (fsWrite fs0 (inputFileNameFor videoFile.name)
                  videoFile.data) paletteFileName d2
              | none => fsWrite fs0 (inputFileNameFor videoFile.name) videoFile.data)
              outputFileName d
          | none => (match eng.paletteOut with
              | some d2 => fsWrite (fsWrite fs0 (inputFileNameFor videoFile.name)
                  videoFile.data) paletteFileName d2
              | none => fsWrite fs0 (inputFileNameFor videoFile.name) videoFile.data))
        outputFileName with
      | some d => exact ⟨_, rfl⟩
      | none => exact ⟨_, rfl⟩

/-- Claim C1: the spec requires the three staged names (input, palette,
output) to be absent from the virtual file system on every exit path of
`convertToGif`.  The code only unlinks on the success path (there is no
`finally`), so a failure during the palette command leaves the staged
input behind.  This theorem evaluates the embedding at the failing
input: the call rejects, yet `input.mp4` is still present afterwards. -/
theorem convertToGif_C1_failure_leaks_staged_input :
    (convertToGif engRun1Fail true [] mp4File (some 0) (some 5) (some 480)
      (some 10) (some 75) none).result =
      Except.error (JsVal.str ("Failed to convert video: x")) ∧
    fsHas (convertToGif engRun1Fail true [] mp4File (some 0) (some 5) (some 480)
      (some 10) (some 75) none).fs (("input.mp4").data) = true := by
  constructor
  · norm_num [convertToGif, convertBody, engRun1Fail]
    decide
  · norm_num [convertToGif, convertBody, engRun1Fail]
    decide

/-- Claim C2, counterexample: with endTime = startTime = 5 the call does
reject with the InvalidRange message, but a staged-file write to the
virtual file system has already occurred, contradicting the claim that
no staged-file write occurs. -/
theorem convertToGif_C2_counterexample :
    (convertToGif engOk true [] mp4File (some 5) (some 5) (some 480) (some 10)
      (some 75) none).result =
      Except.error (JsVal.str
        ("Invalid time range: end time must be greater than start time")) ∧
    writeEventsOf (convertToGif engOk true [] mp4File (some 5) (some 5)
      (some 480) (some 10) (some 75) none).trace =
      [Event.writeFile (("input.mp4").data) [1, 2]] := by
  constructor
  · norm_num [convertToGif, convertBody, engOk]
  · norm_num [convertToGif, convertBody, engOk, writeEventsOf]
    decide

/-- Claim C2 as amended: for endTime - startTime ≤ 0 the call rejects
with the InvalidRange message and no engine command is issued, but the
input staged-file write has already happened (the staged input is
written before validation and remains in the virtual file system). -/
theorem convertToGif_C2_amended (eng : Engine) (fs0 : VFS) (videoFile : VFile)
    (s e w f q : ℚ) (pcb : Option String) (h : e - s ≤ 0) :
    (convertToGif eng true fs0 videoFile (some s) (some e) (some w) (some f)
      (some q) pcb).result =
      Except.error (JsVal.str
        ("Invalid time range: end time must be greater than start time")) ∧
    runCmdsOf (convertToGif eng true fs0 videoFile (some s) (some e) (some w)
      (some f) (some q) pcb).trace = [] ∧
    (convertToGif eng true fs0 videoFile (some s) (some e) (some w) (some f)
      (some q) pcb).trace =
      [Event.writeFile (inputFileNameFor videoFile.name) videoFile.data] ∧
    fsHas (convertToGif eng true fs0 videoFile (some s) (some e) (some w)
      (some f) (some q) pcb).fs (inputFileNameFor videoFile.name) = true := by
  rw [convertToGif_loaded]
  simp only [convertBody]
  rw [if_pos h]
  refine ⟨rfl, rfl, rfl, fsHas_fsWrite_self fs0 _ videoFile.data⟩

theorem convertToGif_C2_amended_witness :
    ((5 : ℚ) - 5 ≤ 0) ∧
    ((convertToGif engOk true [] mp4File (some 5) (some 5) (some 480) (some 10)
      (some 75) none).result =
      Except.error (JsVal.str
        ("Invalid time range: end time must be greater than start time")) ∧
    runCmdsOf (convertToGif engOk true [] mp4File (some 5) (some 5) (some 480)
      (some 10) (some 75) none).trace = [] ∧
    (convertToGif engOk true [] mp4File (some 5) (some 5) (some 480) (some 10)
      (some 75) none).trace =
      [Event.writeFile (inputFileNameFor mp4File.name) mp4File.data] ∧
    fsHas (convertToGif engOk true [] mp4File (some 5) (some 5) (some 480)
      (some 10) (some 75) none).fs (inputFileNameFor mp4File.name) = true) :=
  ⟨by norm_num,
    convertToGif_C2_amended engOk [] mp4File 5 5 480 10 75 none (by norm_num)⟩

/-- Claim C3: the claim says N concurrent `load` calls start exactly one
bring-up and that every caller's promise settles with Ready or with the
same Failed error.  The first half holds (one `initiated`, the rest
`waiting`), but the waiter's `setInterval` handler resolves only when
`isLoaded` becomes true; a failed bring-up leaves `isLoaded` false
forever (`completeFailure` clears only `isLoading`), so the waiting
caller's promise never settles.  This theorem evaluates the embedding
at the failing scenario: two concurrent calls, bring-up fails. -/
theorem load_C3_waiter_never_settles_on_failure :
    runLoadCalls 2 initialLoadSt =
      ([LoadCallRes.initiated, LoadCallRes.waiting],
        { isLoaded := false, isLoading := true }) ∧
    (runLoadCalls 2 initialLoadSt).1.count LoadCallRes.initiated = 1 ∧
    waiterResolves (completeSuccess (runLoadCalls 2 initialLoadSt).2) = true ∧
    waiterResolves (completeFailure (runLoadCalls 2 initialLoadSt).2) = false := by
  decide

/-- Claim C4: `convertToGif` clamps quality into [1,100] instead of
rejecting, and the palette command it issues carries
`statsMode = max(1, round((100 - clampedQuality)/20))`; in particular
quality 75 gives 1, quality 1 gives 5 and quality 100 gives 1.  The
first conjunct shows the palette command is issued (no rejection) for
every quality, including values outside [1,100]. -/
theorem convertToGif_C4_quality_clamped (eng : Engine) (fs0 : VFS)
    (videoFile : VFile) (s e w f q : ℚ) (pcb : Option String)
    (h : 0 < e - s) :
    (runCmdsOf (convertToGif eng true fs0 videoFile (some s) (some e) (some w)
      (some f) (some q) pcb).trace).head? =
      some (paletteCmdArgs s (e - s) (inputFileNameFor videoFile.name) f w
        (statsModeOf q)) ∧
    statsModeOf q = max 1 (jsRound ((100 - max 1 (min 100 q)) / 20)) ∧
    statsModeOf 75 = 1 ∧ statsModeOf 1 = 5 ∧ statsModeOf 100 = 1 := by
  refine ⟨?_, rfl, ?_, ?_, ?_⟩
  · rw [convertToGif_loaded]
    obtain ⟨rest, hrest⟩ := convertBody_trace_shape eng fs0 videoFile s e w f q
      pcb (not_le.mpr h)
    rw [hrest]
    simp [runCmdsOf]
  · norm_num [statsModeOf, normalizedQualityOf, jsRound]
  · norm_num [statsModeOf, normalizedQualityOf, jsRound]
  · norm_num [statsModeOf, normalizedQualityOf, jsRound]

theorem convertToGif_C4_quality_clamped_witness :
    ((0 : ℚ) < 5 - 0) ∧
    ((runCmdsOf (convertToGif engOk true [] mp4File (some 0) (some 5) (some 480)
      (some 10) (some 150) none).trace).head? =
      some (paletteCmdArgs 0 (5 - 0) (inputFileNameFor mp4File.name) 10 480
        (statsModeOf 150)) ∧
    statsModeOf 150 = max 1 (jsRound ((100 - max 1 (min 100 150)) / 20)) ∧
    statsModeOf 75 = 1 ∧ statsModeOf 1 = 5 ∧ statsModeOf 100 = 1) ∧
    statsModeOf 150 = 1 :=
  ⟨by norm_num,
    convertToGif_C4_quality_clamped engOk [] mp4File 0 5 480 10 150 none
      (by norm_num),
    by norm_num [statsModeOf, normalizedQualityOf, jsRound]⟩

/-- Claim C5: the capability probe is a pure boolean function of the
host environment that is true exactly when the shared-memory primitive
exists, the WASM primitive exists (object plus instantiate function),
and the page is cross-origin isolated; it is false when cross-origin
isolation is absent (false or undefined) even if the other two hold. -/
theorem checkBrowserSupport_C5 (env : HostEnv) :
    (checkBrowserSupport env = true ↔
      env.sharedArrayBufferDefined = true ∧ env.wasmIsObject = true ∧
      env.wasmInstantiateIsFunction = true ∧
      env.crossOriginIsolated = some true) ∧
    checkBrowserSupport envNotIsolatedFalse = false ∧
    checkBrowserSupport envNotIsolatedUndef = false := by
  refine ⟨?_, by decide, by decide⟩
  unfold checkBrowserSupport
  simp only [Bool.and_eq_true, beq_iff_eq]
  tauto

/-- Claim C6: on a successful conversion the orchestrator issues exactly
two engine commands, the palette command strictly before the encode
command, both scoped by `-ss startTime -t (endTime - startTime)`, and
resolves with the output bytes tagged `image/gif`; the buffer is
non-empty whenever the engine produced non-empty output. -/
theorem convertToGif_C6_success (eng : Engine) (fs0 : VFS) (videoFile : VFile)
    (s e w f q : ℚ) (pcb : Option String) (g : Bytes)
    (h : 0 < e - s) (h1 : eng.run1Result = none) (h2 : eng.run2Result = none)
    (hg : eng.gifOut = some g) (hne : g ≠ []) :
    runCmdsOf (convertToGif eng true fs0 videoFile (some s) (some e) (some w)
      (some f) (some q) pcb).trace =
      [paletteCmdArgs s (e - s) (inputFileNameFor videoFile.name) f w
        (statsModeOf q),
       encodeCmdArgs s (e - s) (inputFileNameFor videoFile.name) f w] ∧
    (paletteCmdArgs s (e - s) (inputFileNameFor videoFile.name) f w
      (statsModeOf q)).take 4 =
      [Arg.lit ("-ss"), Arg.num s, Arg.lit ("-t"), Arg.num (e - s)] ∧
    (encodeCmdArgs s (e - s) (inputFileNameFor videoFile.name) f w).take 4 =
      [Arg.lit ("-ss"), Arg.num s, Arg.lit ("-t"), Arg.num (e - s)] ∧
    (convertToGif eng true fs0 videoFile (some s) (some e) (some w) (some f)
      (some q) pcb).result =
      Except.ok { data := g, type := "image/gif" } ∧
    g ≠ [] := by
  rw [convertToGif_loaded]
  simp only [convertBody]
  rw [if_neg (not_le.mpr h)]
  simp only [h1, h2, hg]
  rw [fsRead_fsWrite_self]
  refine ⟨?_, rfl, rfl, rfl, hne⟩
  simp [runCmdsOf]

theorem convertToGif_C6_success_witness :
    ((0 : ℚ) < 7 - 2) ∧ engOk.run1Result = none ∧ engOk.run2Result = none ∧
    engOk.gifOut = some [1, 2, 3] ∧ ([1, 2, 3] : Bytes) ≠ [] ∧
    ((7 : ℚ) - 2 = 5) ∧ statsModeOf 75 = 1 ∧
    (runCmdsOf (convertToGif engOk true [] mp4File (some 2) (some 7) (some 480)
      (some 10) (some 75) none).trace =
      [paletteCmdArgs 2 (7 - 2) (inputFileNameFor mp4File.name) 10 480
        (statsModeOf 75),
       encodeCmdArgs 2 (7 - 2) (inputFileNameFor mp4File.name) 10 480] ∧
    (paletteCmdArgs 2 (7 - 2) (inputFileNameFor mp4File.name) 10 480
      (statsModeOf 75)).take 4 =
      [Arg.lit ("-ss"), Arg.num 2, Arg.lit ("-t"), Arg.num (7 - 2)] ∧
    (encodeCmdArgs 2 (7 - 2) (inputFileNameFor mp4File.name) 10 480).take 4 =
      [Arg.lit ("-ss"), Arg.num 2, Arg.lit ("-t"), Arg.num (7 - 2)] ∧
    (convertToGif engOk true [] mp4File (some 2) (some 7) (some 480) (some 10)
      (some 75) none).result =
      Except.ok { data := [1, 2, 3], type := "image/gif" } ∧
    ([1, 2, 3] : Bytes) ≠ []) :=
  ⟨by norm_num, rfl, rfl, rfl, by decide, by norm_num,
    by norm_num [statsModeOf, normalizedQualityOf, jsRound],
    convertToGif_C6_success engOk [] mp4File 2 7 480 10 75 none [1, 2, 3]
      (by norm_num) rfl rfl rfl (by decide)⟩

/-- Claim C7: the value handed to the caller's progress sink for an
engine ratio `r` is `round(r * 100)`, which lies in [0, 100] whenever
`0 ≤ r ≤ 1`. -/
theorem progressPercent_C7 (r : ℚ) (h0 : 0 ≤ r) (h1 : r ≤ 1) :
    progressPercent r = jsRound (r * 100) ∧
    0 ≤ progressPercent r ∧ progressPercent r ≤ 100 := by
  refine ⟨rfl, ?_, ?_⟩
  · unfold progressPercent jsRound
    have hx : (0 : ℚ) ≤ r * 100 + 1/2 := by linarith
    exact Int.le_floor.mpr (by exact_mod_cast hx)
  · unfold progressPercent jsRound
    have hx : r * 100 + 1/2 < ((101 : ℤ) : ℚ) := by push_cast; linarith
    have h2 : ⌊r * 100 + 1/2⌋ < (101 : ℤ) := Int.floor_lt.mpr hx
    omega

theorem progressPercent_C7_witness :
    ((0 : ℚ) ≤ 1) ∧ ((1 : ℚ) ≤ 1) ∧
    (progressPercent 1 = jsRound (1 * 100) ∧
      0 ≤ progressPercent 1 ∧ progressPercent 1 ≤ 100) ∧
    progressPercent 1 = 100 :=
  ⟨by norm_num, by norm_num, progressPercent_C7 1 (by norm_num) (by norm_num),
    by norm_num [progressPercent, jsRound]⟩

/-- Claim C8, counterexample: when the bring-up fails with an `Error`
whose message is `boom`, `load` itself rejects with that `Error`
object, but the conversion rejects with the distinct string
`Failed to load FFmpeg: boom` — not the same underlying error value,
contradicting the claim that no separate wrapping occurs. -/
theorem convertToGif_C8_counterexample :
    (convertToGif engLoadFail false [] mp4File none none none none none
      none).result =
      Except.error (JsVal.str ("Failed to load FFmpeg: boom")) ∧
    loadRejectValue engLoadFail = some (JsVal.errObj ("boom")) ∧
    JsVal.str ("Failed to load FFmpeg: boom") ≠ JsVal.errObj ("boom") := by
  refine ⟨?_, by decide, by decide⟩
  norm_num [convertToGif, engLoadFail]
  decide

/-- Claim C8 as amended: when the engine is not loaded and the bring-up
fails with message `msg`, the conversion rejects with the string
`"Failed to load FFmpeg: " ++ msg` — the underlying message is carried,
prefixed, inside a fresh string rejection (while `load` itself rejects
with the underlying `Error` object); no staging or engine command
happens. -/
theorem convertToGif_C8_amended (eng : Engine) (msg : String) (fs0 : VFS)
    (videoFile : VFile) (sOpt eOpt wOpt fOpt qOpt : Option ℚ)
    (pcb : Option String) (h : eng.loadResult = some msg) :
    (convertToGif eng false fs0 videoFile sOpt eOpt wOpt fOpt qOpt pcb).result =
      Except.error (JsVal.str ("Failed to load FFmpeg: " ++ msg)) ∧
    (convertToGif eng false fs0 videoFile sOpt eOpt wOpt fOpt qOpt pcb).trace
      = [] ∧
    (convertToGif eng false fs0 videoFile sOpt eOpt wOpt fOpt qOpt pcb).fs
      = fs0 ∧
    loadRejectValue eng = some (JsVal.errObj msg) := by
  simp only [convertToGif, loadRejectValue, h]
  exact ⟨rfl, rfl, rfl, rfl⟩

theorem convertToGif_C8_amended_witness :
    engLoadFail.loadResult = some ("boom") ∧
    ((convertToGif engLoadFail false [] mp4File none none none none none
      none).result =
      Except.error (JsVal.str ("Failed to load FFmpeg: " ++ "boom")) ∧
    (convertToGif engLoadFail false [] mp4File none none none none none
      none).trace = [] ∧
    (convertToGif engLoadFail false [] mp4File none none none none none
      none).fs = [] ∧
    loadRejectValue engLoadFail = some (JsVal.errObj ("boom"))) :=
  ⟨rfl, convertToGif_C8_amended engLoadFail ("boom") [] mp4File none none none
    none none none rfl⟩

/-- Claim C9: the staged input name is `input.` followed by the
lower-cased substring after the last dot of the source name; when the
name has no dot, the whole lower-cased name is used.  `specExtension`
is the spec-side formulation; the code's `split/pop/toLowerCase`
derivation coincides with it on every name. -/
theorem getFileExtension_C9 (name : List Char) :
    getFileExtension name = specExtension name ∧
    inputFileNameFor name = ("input.").data ++ specExtension name := by
  refine ⟨getFileExtension_eq_spec name, ?_⟩
  unfold inputFileNameFor
  rw [getFileExtension_eq_spec]

/-- Claim C10: omitting the optional parameters behaves exactly as
calling with startTime 0, endTime 10, outputWidth 480, fps 10, quality
75 and no progress callback. -/
theorem convertToGif_C10_defaults (eng : Engine) (isLoaded : Bool) (fs0 : VFS)
    (videoFile : VFile) :
    convertToGif eng isLoaded fs0 videoFile none none none none none none =
      convertToGif eng isLoaded fs0 videoFile (some 0) (some 10) (some 480)
        (some 10) (some 75) none := rfl
